import Mathlib

/-!
# sshutil: the key loader (`keys.go`) and the debug sink (`debug.go`)

A shallow embedding of the Go package `sshutil`.

* Go's `error` interface is the type `error`; the nil interface value is the
  constructor `error.nil`, so a Go result pair `(x, err)` is a Lean pair.
* A Go `string` is a Lean `String`; a `[]byte` is a `List UInt8`, and a slice
  variable that may be nil is an `Option` of it.
* The functions the package imports (`ioutil.ReadFile`, `pem.Decode`,
  `x509.*`, `ssh.*`, `user.Current`, `filepath.*`, the `%q` verb of `fmt`) are
  the fields of `Env`: every theorem holds for all of them.
* Every call of an imported function is recorded, in order, in the `calls`
  field of the result, which makes "is never invoked" a statement about a list.
* The debug sink is state passed explicitly: the read/write lock around the
  field `l` is not modelled, the semantics is the sequential one.
-/

namespace Sshutil

/-- The Go type `[]byte` (when non-nil). -/
abbrev Bytes := List UInt8

/-- The conversion `[]byte(s)`: the UTF-8 bytes of the string. The result of
the conversion is a non-nil slice also for the empty string. -/
def bytesOf (s : String) : Bytes := s.data.flatMap String.utf8EncodeChar

/-- Values of Go's interface type `error`. `errorString` is what `errors.New`
and `fmt.Errorf` (without `%w`) build, `external` stands for any other error
value an imported package hands out, `KeyError` is the struct of keys.go with
its two fields in source order. -/
inductive error where
  | nil
  | errorString (s : String)
  | external (pkg : String) (msg : String)
  | KeyError (Err : error) (File : String)
  deriving DecidableEq, Repr

namespace errors

/-- The function `errors.New`. -/
def New (text : String) : error := error.errorString text

end errors

/-- The type `pem.Block`: type label (the Go field `Type`), headers, decoded
body. -/
structure pem.Block where
  Type_ : String
  Headers : List (String × String)
  Bytes : Bytes
  deriving DecidableEq, Repr

/-- A value of `crypto.PrivateKey` as produced by one of the structure parsers:
which parser built it and from which DER bytes. -/
structure crypto.PrivateKey where
  kind : String
  der : Bytes
  deriving DecidableEq, Repr

/-- A value of the interface `ssh.Signer`, identified by its marshalled public
key. -/
structure ssh.Signer where
  pub : Bytes
  deriving DecidableEq, Repr

/-- The type `user.User`, reduced to the field the package reads. -/
structure user.User where
  HomeDir : String
  deriving DecidableEq, Repr

/-- One call of an imported function, with its arguments. -/
inductive Call where
  | ReadFile (name : String)
  | Decode (data : Bytes)
  | IsEncryptedPEMBlock (b : pem.Block)
  | DecryptPEMBlock (b : pem.Block) (password : Bytes)
  | ParsePKCS1PrivateKey (der : Bytes)
  | ParseECPrivateKey (der : Bytes)
  | ParseDSAPrivateKey (der : Bytes)
  | ParsePrivateKey (pemBytes : Bytes)
  | NewSignerFromKey (key : Option crypto.PrivateKey)
  deriving DecidableEq, Repr

/-- The imported functions, as the package sees them. Result pairs are Go's:
both components are always present, and nothing relates them. -/
structure Env where
  /-- The function `ioutil.ReadFile`. -/
  ReadFile : String → Bytes × error
  /-- The function `pem.Decode`: the first block (or nil) and the rest. -/
  Decode : Bytes → Option pem.Block × Bytes
  /-- The function `x509.IsEncryptedPEMBlock`. -/
  IsEncryptedPEMBlock : pem.Block → Bool
  /-- The function `x509.DecryptPEMBlock`. -/
  DecryptPEMBlock : pem.Block → Bytes → Bytes × error
  /-- The function `x509.ParsePKCS1PrivateKey`. -/
  ParsePKCS1PrivateKey : Bytes → Option crypto.PrivateKey × error
  /-- The function `x509.ParseECPrivateKey`. -/
  ParseECPrivateKey : Bytes → Option crypto.PrivateKey × error
  /-- The function `ssh.ParseDSAPrivateKey`. -/
  ParseDSAPrivateKey : Bytes → Option crypto.PrivateKey × error
  /-- The function `ssh.ParsePrivateKey`. -/
  ParsePrivateKey : Bytes → Option ssh.Signer × error
  /-- The function `ssh.NewSignerFromKey`. -/
  NewSignerFromKey : Option crypto.PrivateKey → Option ssh.Signer × error
  /-- The function `user.Current`: `.ok u` for the user `u` and a nil error,
  `.error err` for a failed lookup and its (non-nil) error `err`. -/
  Current : Except error user.User
  /-- The function `filepath.Join`. -/
  Join : List String → String
  /-- The function `filepath.Clean`. -/
  Clean : String → String
  /-- The verb `%q` of package fmt on a string operand (`strconv.Quote`). -/
  Quote : String → String

/-- The method `Error` of an error value, and with it the verb `%v` of package
fmt on an operand of type `error` (`<nil>` for the nil interface). The last
case is `KeyError.Error` of keys.go:
`fmt.Sprintf("sshutil: key error %q: %v", e.File, e.Err)`. -/
def error.Error (env : Env) : error → String
  | .nil => "<nil>"
  | .errorString s => s
  | .external _ msg => msg
  | .KeyError Err File =>
      "sshutil: key error " ++ env.Quote File ++ ": " ++ error.Error env Err

/-- The struct `keyPair`; `Password` is a slice that may be nil. -/
structure keyPair where
  File : String
  Password : Option Bytes := none
  deriving DecidableEq, Repr

/-- The function `Key`. -/
def Key (file : String) : keyPair := { File := file }

/-- The function `EncryptedKey`. -/
def EncryptedKey (file password : String) : keyPair :=
  { File := file, Password := some (bytesOf password) }

/-- The function `ke`. -/
def ke (kp : keyPair) (err : error) : error := error.KeyError err kp.File

/-- What a method returning `(ssh.Signer, error)` did: the imported functions
it called, in order, and the pair it returned. -/
structure Result where
  calls : List Call
  s : Option ssh.Signer
  err : error
  deriving DecidableEq, Repr

/-- The method `keyPair.parseEncryptedKey`. -/
def keyPair.parseEncryptedKey (env : Env) (kp : keyPair) (p : pem.Block) : Result :=
  match kp.Password with
  | none => ⟨[], none, errors.New "no password provided for encrypted key"⟩
  | some pw =>
    let (der, err) := env.DecryptPEMBlock p pw
    let c₁ := [Call.DecryptPEMBlock p pw]
    if err ≠ error.nil then ⟨c₁, none, err⟩
    else
      let (c₂, s, err) : List Call × Option crypto.PrivateKey × error :=
        if p.Type_ = "RSA PRIVATE KEY" then
          (c₁ ++ [Call.ParsePKCS1PrivateKey der], env.ParsePKCS1PrivateKey der)
        else if p.Type_ = "EC PRIVATE KEY" then
          (c₁ ++ [Call.ParseECPrivateKey der], env.ParseECPrivateKey der)
        else if p.Type_ = "DSA PRIVATE KEY" then
          (c₁ ++ [Call.ParseDSAPrivateKey der], env.ParseDSAPrivateKey der)
        else
          (c₁, none,
            errors.New ("unsupported private key type " ++ env.Quote p.Type_))
      if err ≠ error.nil then ⟨c₂, none, err⟩
      else
        let (sg, err) := env.NewSignerFromKey s
        ⟨c₂ ++ [Call.NewSignerFromKey s], sg, err⟩

/-- The method `keyPair.Signer`. -/
def keyPair.Signer (env : Env) (kp : keyPair) : Result :=
  let (b, err) := env.ReadFile kp.File
  let c₁ := [Call.ReadFile kp.File]
  if err ≠ error.nil then ⟨c₁, none, ke kp err⟩
  else
    let c₂ := c₁ ++ [Call.Decode b]
    match (env.Decode b).1 with
    | none => ⟨c₂, none, ke kp (errors.New "no PEM block found")⟩
    | some p =>
      let c₃ := c₂ ++ [Call.IsEncryptedPEMBlock p]
      let r : Result :=
        if env.IsEncryptedPEMBlock p then
          let r := kp.parseEncryptedKey env p
          ⟨c₃ ++ r.calls, r.s, r.err⟩
        else
          let (s, err) := env.ParsePrivateKey b
          ⟨c₃ ++ [Call.ParsePrivateKey b], s, err⟩
      if r.err ≠ error.nil then ⟨r.calls, none, ke kp r.err⟩
      else r

/-! ## debug.go -/

/-- An operand of type `interface{}` passed to the logger. -/
inductive Value where
  | string (s : String)
  | error (e : error)
  | int (n : Int)
  deriving DecidableEq, Repr

/-- A non-nil value of the interface `Logger`, identified by a number. -/
structure Logger where
  id : Nat
  deriving DecidableEq, Repr

/-- One method call received by a logger. -/
inductive LoggerCall where
  | Print (target : Logger) (v : List Value)
  | Printf (target : Logger) (format : String) (v : List Value)
  deriving DecidableEq, Repr

/-- The struct `debugger`: the field `l` is nil in the zero value. -/
structure debugger where
  l : Option Logger := none
  deriving DecidableEq, Repr

/-- The method `debugger.setLog`. -/
def debugger.setLog (d : debugger) (l : Option Logger) : debugger :=
  { d with l := l }

/-- The method `debugger.log`: the debugger afterwards and the calls made on
the logger. -/
def debugger.log (d : debugger) (format : String) (v : List Value) :
    debugger × List LoggerCall :=
  match d.l with
  | none => (d, [])
  | some l =>
    if v.length = 0 then (d, [LoggerCall.Print l [Value.string format]])
    else (d, [LoggerCall.Printf l format v])

/-- The function `SetDebug`, on the package variable `debug`. -/
def SetDebug (debug : debugger) (l : Option Logger) : debugger := debug.setLog l

/-- The function `l`, on the package variable `debug`. -/
def l (debug : debugger) (format : String) (v : List Value) :
    debugger × List LoggerCall :=
  debug.log format v

/-! ## keys.go, path resolution -/

/-- The function `sshDir`: the path, the package variable `debug` afterwards,
and the calls made on the logger. -/
def sshDir (env : Env) (debug : debugger) (file : String) :
    String × debugger × List LoggerCall :=
  match env.Current with
  | .error err =>
    let (debug, out) := l debug "unable to find current user: %v" [Value.error err]
    (file, debug, out)
  | .ok u => (env.Clean (env.Join [u.HomeDir, ".ssh", file]), debug, [])

/-- The function `UserKey`. -/
def UserKey (env : Env) (debug : debugger) (file : String) :
    keyPair × debugger × List LoggerCall :=
  let (path, debug, out) := sshDir env debug file
  (Key path, debug, out)

/-- The function `EncryptedUserKey`. -/
def EncryptedUserKey (env : Env) (debug : debugger) (file password : String) :
    keyPair × debugger × List LoggerCall :=
  let (path, debug, out) := sshDir env debug file
  (EncryptedKey path password, debug, out)

end Sshutil

namespace Sshutil

/-! ## The Key-Type Dispatcher as the specification words it -/

/-- The three structure parsers of the specification's dispatch table. -/
inductive StructureParser where
  | PKCS1
  | SEC1
  | DSA
  deriving DecidableEq, Repr

/-- The dispatch table of the specification (section 4.4), read row by row:
case-sensitive exact match on the label, no parser for anything else. -/
def dispatchTable (label : String) : Option StructureParser :=
  if label = "RSA PRIVATE KEY" then some StructureParser.PKCS1
  else if label = "EC PRIVATE KEY" then some StructureParser.SEC1
  else if label = "DSA PRIVATE KEY" then some StructureParser.DSA
  else none

/-- The call of the imported function that a table row stands for. -/
def StructureParser.call : StructureParser → Bytes → Call
  | .PKCS1, der => Call.ParsePKCS1PrivateKey der
  | .SEC1, der => Call.ParseECPrivateKey der
  | .DSA, der => Call.ParseDSAPrivateKey der

/-- The result of the imported function that a table row stands for. -/
def StructureParser.run (env : Env) :
    StructureParser → Bytes → Option crypto.PrivateKey × error
  | .PKCS1, der => env.ParsePKCS1PrivateKey der
  | .SEC1, der => env.ParseECPrivateKey der
  | .DSA, der => env.ParseDSAPrivateKey der

/-- The Key-Type Dispatcher of the specification: the generic private key or
the error of the selected parser, and the unsupported-key-type error naming
the label when the table has no row for it. -/
def KeyTypeDispatcher (env : Env) (label : String) (der : Bytes) :
    Option crypto.PrivateKey × error :=
  match dispatchTable label with
  | some P => P.run env der
  | none => (none, errors.New ("unsupported private key type " ++ env.Quote label))

/-- The parser calls the dispatcher makes for a label: the call of the selected
row, none when the table has no row. -/
def dispatchCalls (label : String) (der : Bytes) : List Call :=
  match dispatchTable label with
  | some P => [P.call der]
  | none => []

/-- The three calls `Signer` makes before it looks at the password. -/
def firstCalls (env : Env) (file : String) (p : pem.Block) : List Call :=
  [Call.ReadFile file, Call.Decode (env.ReadFile file).1, Call.IsEncryptedPEMBlock p]

/-- Whether a call is one of the three structure parsers or the generic
private-key parser. -/
def Call.isParser : Call → Bool
  | .ParsePKCS1PrivateKey _ => true
  | .ParseECPrivateKey _ => true
  | .ParseDSAPrivateKey _ => true
  | .ParsePrivateKey _ => true
  | _ => false

/-- Whether a call is a call of the decryptor. -/
def Call.isDecrypt : Call → Bool
  | .DecryptPEMBlock _ _ => true
  | _ => false

/-! ## A concrete environment

A small world on which the definitions can be evaluated: four key files, a
decryptor that (as `x509.DecryptPEMBlock` does) recognises a wrong password
only by the padding of the decrypted body, structure parsers that accept one
DER encoding, and a generic parser that (as `ssh.ParsePrivateKey` does)
refuses a passphrase-protected key in the OpenSSH format. -/

namespace Example

/-- The DER bytes of the private key stored in the key files. -/
def der : Bytes := [0x30, 0x82, 0x01]

/-- Headers of a block encrypted in the legacy PEM way. -/
def encHeaders : List (String × String) :=
  [("Proc-Type", "4,ENCRYPTED"), ("DEK-Info", "AES-128-CBC,6868")]

/-- The body of the encrypted blocks: `der` and one byte of padding, encrypted
under the password `hunter2`. -/
def encBody : Bytes := [0x58, 0xea, 0x69, 0x69]

/-- The first block of the file `rsa_enc`. -/
def rsaEnc : pem.Block := ⟨"RSA PRIVATE KEY", encHeaders, encBody⟩

/-- A string in the wire format of OpenSSH: four bytes of length, then the
bytes. The strings used here are shorter than 256 bytes. -/
def sshString (s : String) : Bytes :=
  [0, 0, 0, UInt8.ofNat (bytesOf s).length] ++ bytesOf s

/-- The start of the body of a key in the OpenSSH format: the magic
`openssh-key-v1` with its closing zero byte, then the names of the cipher and
of the key derivation function under which the private part is stored. -/
def opensshBody (cipher kdf : String) : Bytes :=
  bytesOf "openssh-key-v1" ++ [0] ++ sshString cipher ++ sshString kdf

/-- The first block of the file `openssh_enc`, a passphrase-protected key in
the OpenSSH format: the block has no PEM headers, the encryption is declared
inside the body. -/
def opensshEnc : pem.Block :=
  ⟨"OPENSSH PRIVATE KEY", [], opensshBody "aes256-ctr" "bcrypt"⟩

/-- The first block of the file `rsa`. -/
def rsaPlain : pem.Block := ⟨"RSA PRIVATE KEY", [], der⟩

/-- The file system: the contents of each file, or the error of the read. -/
def readFile (name : String) : Bytes × error :=
  if name = "rsa_enc" then ([1], error.nil)
  else if name = "openssh_enc" then ([2], error.nil)
  else if name = "rsa" then ([3], error.nil)
  else if name = "malformed" then ([4], error.nil)
  else ([], error.external "os" ("open " ++ name ++ ": no such file or directory"))

/-- The PEM decoder on the contents of the files. -/
def decode (data : Bytes) : Option pem.Block × Bytes :=
  if data = [1] then (some rsaEnc, [])
  else if data = [2] then (some opensshEnc, [])
  else if data = [3] then (some rsaPlain, [])
  else (none, data)

/-- The error `x509.IncorrectPasswordError`. -/
def IncorrectPasswordError : error :=
  error.external "x509" "x509: decryption password incorrect"

/-- A decryptor in the manner of `x509.DecryptPEMBlock`, with a cipher of
block size 4 that xors each byte with the first byte of the password: the
decrypted body is rejected when its padding (the last `n` bytes all equal to
`n`) is wrong, and is otherwise returned without the padding. -/
def decryptPEMBlock (b : pem.Block) (password : Bytes) : Bytes × error :=
  let data := b.Bytes.map (fun x => x ^^^ password.headD 0)
  let dlen := data.length
  if dlen = 0 ∨ dlen % 4 ≠ 0 then ([], error.external "x509" "x509: invalid padding")
  else
    let last := (data.getLastD 0).toNat
    if dlen < last then ([], IncorrectPasswordError)
    else if last = 0 ∨ last > 4 then ([], IncorrectPasswordError)
    else if (data.drop (dlen - last)).all (fun x => x.toNat = last) then
      (data.take (dlen - last), error.nil)
    else ([], IncorrectPasswordError)

/-- One hexadecimal digit. -/
def hexDigit (n : Nat) : Char :=
  if n < 10 then Char.ofNat (48 + n) else Char.ofNat (87 + n)

/-- The escape `strconv.Quote` writes for one rune, for the ASCII range: the
quote and the backslash are escaped, a control character becomes its
mnemonic or a two-digit hexadecimal escape, everything else stands for itself
(beyond ASCII `strconv.Quote` consults `unicode.IsPrint`; here such a rune is
taken to be printable). -/
def escapeRune (c : Char) : String :=
  if c.toNat = 34 then "\\\""
  else if c.toNat = 92 then "\\\\"
  else if c.toNat = 7 then "\\a"
  else if c.toNat = 8 then "\\b"
  else if c.toNat = 12 then "\\f"
  else if c.toNat = 10 then "\\n"
  else if c.toNat = 13 then "\\r"
  else if c.toNat = 9 then "\\t"
  else if c.toNat = 11 then "\\v"
  else if c.toNat < 32 ∨ c.toNat = 127 then
    "\\x" ++ String.mk [hexDigit (c.toNat / 16), hexDigit (c.toNat % 16)]
  else String.singleton c

/-- The double-quoted Go string literal of a string. -/
def quote (s : String) : String :=
  "\"" ++ String.join (s.data.map escapeRune) ++ "\""

/-- A structure parser that accepts exactly the bytes `der`. -/
def parseDER (kind : String) (d : Bytes) : Option crypto.PrivateKey × error :=
  if d = der then (some ⟨kind, d⟩, error.nil)
  else (none, error.external "asn1" "asn1: structure error: tags do not match")

/-- A generic private-key parser in the manner of `ssh.ParsePrivateKey`, which
is given no passphrase: a key in the OpenSSH format is accepted only when its
body names the cipher and the key derivation function `none`, any other block
only when its body is `der`. -/
def parsePrivateKey (data : Bytes) : Option ssh.Signer × error :=
  match (decode data).1 with
  | none => (none, error.external "ssh" "ssh: no key found")
  | some b =>
    if b.Type_ = "OPENSSH PRIVATE KEY" then
      if b.Bytes = opensshBody "none" "none" then (some ⟨der⟩, error.nil)
      else (none, error.external "ssh" "ssh: cannot decode encrypted private keys")
    else if b.Bytes = der then (some ⟨der⟩, error.nil)
    else (none, error.external "asn1" "asn1: structure error: tags do not match")

/-- The environment. -/
def env : Env where
  ReadFile := readFile
  Decode := decode
  IsEncryptedPEMBlock b := (b.Headers.lookup "DEK-Info").isSome
  DecryptPEMBlock := decryptPEMBlock
  ParsePKCS1PrivateKey := parseDER "rsa"
  ParseECPrivateKey := parseDER "ecdsa"
  ParseDSAPrivateKey := parseDER "dsa"
  ParsePrivateKey := parsePrivateKey
  NewSignerFromKey key :=
    match key with
    | some k => (some ⟨k.der⟩, error.nil)
    | none => (none, error.external "ssh" "ssh: unsupported key type <nil>")
  Current := .ok ⟨"/home/op"⟩
  Join elems := "/".intercalate elems
  Clean path := path
  Quote := quote

/-- The environment `env` for a process whose user lookup fails. -/
def envNoUser : Env :=
  { env with Current := .error (error.external "user" "user: Current not implemented") }

end Example

end Sshutil

namespace Sshutil

/-! ## The loader in terms of the dispatcher -/

/-- The `switch` of `parseEncryptedKey` computes the dispatcher of the
specification, with the calls of `dispatchCalls`. -/
theorem parseEncryptedKey_some (env : Env) (kp : keyPair) (p : pem.Block)
    (pw : Bytes) (hpw : kp.Password = some pw) :
    kp.parseEncryptedKey env p =
      if (env.DecryptPEMBlock p pw).2 ≠ error.nil then
        ⟨[Call.DecryptPEMBlock p pw], none, (env.DecryptPEMBlock p pw).2⟩
      else if (KeyTypeDispatcher env p.Type_ (env.DecryptPEMBlock p pw).1).2 ≠ error.nil then
        ⟨Call.DecryptPEMBlock p pw :: dispatchCalls p.Type_ (env.DecryptPEMBlock p pw).1,
          none, (KeyTypeDispatcher env p.Type_ (env.DecryptPEMBlock p pw).1).2⟩
      else
        ⟨Call.DecryptPEMBlock p pw :: dispatchCalls p.Type_ (env.DecryptPEMBlock p pw).1 ++
            [Call.NewSignerFromKey (KeyTypeDispatcher env p.Type_ (env.DecryptPEMBlock p pw).1).1],
          (env.NewSignerFromKey (KeyTypeDispatcher env p.Type_ (env.DecryptPEMBlock p pw).1).1).1,
          (env.NewSignerFromKey (KeyTypeDispatcher env p.Type_ (env.DecryptPEMBlock p pw).1).1).2⟩ := by
  unfold keyPair.parseEncryptedKey
  rw [hpw]
  simp only [KeyTypeDispatcher, dispatchCalls, dispatchTable]
  by_cases hd : (env.DecryptPEMBlock p pw).2 = error.nil
  · by_cases h1 : p.Type_ = "RSA PRIVATE KEY"
    · simp [hd, h1, StructureParser.run, StructureParser.call]
    · by_cases h2 : p.Type_ = "EC PRIVATE KEY"
      · simp [hd, h2, StructureParser.run, StructureParser.call]
      · by_cases h3 : p.Type_ = "DSA PRIVATE KEY"
        · simp [hd, h3, StructureParser.run, StructureParser.call]
        · simp [hd, h1, h2, h3, errors.New]
  · simp [hd]

/-- `Signer` on a file that cannot be read. -/
theorem Signer_of_read_error (env : Env) (kp : keyPair)
    (hr : (env.ReadFile kp.File).2 ≠ error.nil) :
    kp.Signer env =
      ⟨[Call.ReadFile kp.File], none, error.KeyError (env.ReadFile kp.File).2 kp.File⟩ := by
  simp [keyPair.Signer, hr, ke]

/-- `Signer` on a file without a PEM block. -/
theorem Signer_of_no_block (env : Env) (kp : keyPair)
    (hr : (env.ReadFile kp.File).2 = error.nil)
    (hd : (env.Decode (env.ReadFile kp.File).1).1 = none) :
    kp.Signer env =
      ⟨[Call.ReadFile kp.File, Call.Decode (env.ReadFile kp.File).1], none,
        error.KeyError (errors.New "no PEM block found") kp.File⟩ := by
  simp [keyPair.Signer, hr, hd, ke]

/-- `Signer` on a file whose first block is encrypted. -/
theorem Signer_of_encrypted (env : Env) (kp : keyPair) (p : pem.Block)
    (hr : (env.ReadFile kp.File).2 = error.nil)
    (hd : (env.Decode (env.ReadFile kp.File).1).1 = some p)
    (he : env.IsEncryptedPEMBlock p = true) :
    kp.Signer env =
      if (kp.parseEncryptedKey env p).err ≠ error.nil then
        ⟨firstCalls env kp.File p ++ (kp.parseEncryptedKey env p).calls, none,
          error.KeyError (kp.parseEncryptedKey env p).err kp.File⟩
      else
        ⟨firstCalls env kp.File p ++ (kp.parseEncryptedKey env p).calls,
          (kp.parseEncryptedKey env p).s, error.nil⟩ := by
  simp only [keyPair.Signer, hr, hd, he, ke, firstCalls]
  by_cases hp : (kp.parseEncryptedKey env p).err = error.nil <;> simp [hp]

/-- `Signer` on a file whose first block is not encrypted. -/
theorem Signer_of_plain (env : Env) (kp : keyPair) (p : pem.Block)
    (hr : (env.ReadFile kp.File).2 = error.nil)
    (hd : (env.Decode (env.ReadFile kp.File).1).1 = some p)
    (he : env.IsEncryptedPEMBlock p = false) :
    kp.Signer env =
      if (env.ParsePrivateKey (env.ReadFile kp.File).1).2 ≠ error.nil then
        ⟨firstCalls env kp.File p ++ [Call.ParsePrivateKey (env.ReadFile kp.File).1], none,
          error.KeyError (env.ParsePrivateKey (env.ReadFile kp.File).1).2 kp.File⟩
      else
        ⟨firstCalls env kp.File p ++ [Call.ParsePrivateKey (env.ReadFile kp.File).1],
          (env.ParsePrivateKey (env.ReadFile kp.File).1).1, error.nil⟩ := by
  simp only [keyPair.Signer, hr, hd, he, ke, firstCalls]
  by_cases hp : (env.ParsePrivateKey (env.ReadFile kp.File).1).2 = error.nil <;> simp [hp]

/-- `parseEncryptedKey` without a password. -/
theorem parseEncryptedKey_none (env : Env) (kp : keyPair) (p : pem.Block)
    (hpw : kp.Password = none) :
    kp.parseEncryptedKey env p =
      ⟨[], none, errors.New "no password provided for encrypted key"⟩ := by
  simp [keyPair.parseEncryptedKey, hpw]

/-- With a password, `Signer` on an encrypted block calls the decryptor with
that password. -/
theorem decrypt_called_of_password (env : Env) (kp : keyPair) (p : pem.Block)
    (pw : Bytes)
    (hr : (env.ReadFile kp.File).2 = error.nil)
    (hd : (env.Decode (env.ReadFile kp.File).1).1 = some p)
    (he : env.IsEncryptedPEMBlock p = true)
    (hpw : kp.Password = some pw) :
    Call.DecryptPEMBlock p pw ∈ (kp.Signer env).calls := by
  rw [Signer_of_encrypted env kp p hr hd he, parseEncryptedKey_some env kp p pw hpw]
  split_ifs <;> simp

/-! ## Theorems -/

/-- C1. Whenever `keyPair.Signer` returns a non-nil error, the signer it
returns is nil and the error is a `KeyError` whose `File` is the keyPair's
`File` and whose `Err` is the non-nil error of the stage that failed: the read
error, "no PEM block found", the no-password error, the decryption error, the
error of the key-structure parse selected by the label (a parser's error or
the unsupported-key-type error), the signer-construction error, or, for an
unencrypted block, the error of the generic private-key parser. -/
theorem Signer_error_is_KeyError (env : Env) (kp : keyPair)
    (h : (kp.Signer env).err ≠ error.nil) :
    (kp.Signer env).s = none ∧
    ∃ cause, cause ≠ error.nil ∧
      (kp.Signer env).err = error.KeyError cause kp.File ∧
      (cause = (env.ReadFile kp.File).2 ∨
       ((env.ReadFile kp.File).2 = error.nil ∧
        ((env.Decode (env.ReadFile kp.File).1).1 = none ∧
            cause = errors.New "no PEM block found" ∨
         ∃ p, (env.Decode (env.ReadFile kp.File).1).1 = some p ∧
          (env.IsEncryptedPEMBlock p = false ∧
              cause = (env.ParsePrivateKey (env.ReadFile kp.File).1).2 ∨
           env.IsEncryptedPEMBlock p = true ∧
            (kp.Password = none ∧
                cause = errors.New "no password provided for encrypted key" ∨
             ∃ pw, kp.Password = some pw ∧
              (cause = (env.DecryptPEMBlock p pw).2 ∨
               (env.DecryptPEMBlock p pw).2 = error.nil ∧
                (cause = (KeyTypeDispatcher env p.Type_ (env.DecryptPEMBlock p pw).1).2 ∨
                 (KeyTypeDispatcher env p.Type_ (env.DecryptPEMBlock p pw).1).2 = error.nil ∧
                  cause = (env.NewSignerFromKey
                    (KeyTypeDispatcher env p.Type_ (env.DecryptPEMBlock p pw).1).1).2))))))) := by
  by_cases hr : (env.ReadFile kp.File).2 = error.nil
  swap
  · rw [Signer_of_read_error env kp hr]
    exact ⟨rfl, _, hr, rfl, Or.inl rfl⟩
  cases hd : (env.Decode (env.ReadFile kp.File).1).1 with
  | none =>
    rw [Signer_of_no_block env kp hr hd]
    exact ⟨rfl, _, by simp [errors.New], rfl, Or.inr ⟨hr, Or.inl ⟨rfl, rfl⟩⟩⟩
  | some p =>
    cases he : env.IsEncryptedPEMBlock p with
    | false =>
      rw [Signer_of_plain env kp p hr hd he] at h ⊢
      by_cases hp : (env.ParsePrivateKey (env.ReadFile kp.File).1).2 = error.nil
      · rw [if_neg (not_not.mpr hp)] at h
        exact absurd rfl h
      · rw [if_pos hp]
        exact ⟨rfl, _, hp, rfl, Or.inr ⟨hr, Or.inr ⟨p, rfl, Or.inl ⟨he, rfl⟩⟩⟩⟩
    | true =>
      rw [Signer_of_encrypted env kp p hr hd he] at h ⊢
      by_cases hp : (kp.parseEncryptedKey env p).err = error.nil
      · rw [if_neg (not_not.mpr hp)] at h
        exact absurd rfl h
      · rw [if_pos hp]
        refine ⟨rfl, _, hp, rfl, Or.inr ⟨hr, Or.inr ⟨p, rfl, Or.inr ⟨he, ?_⟩⟩⟩⟩
        cases hpw : kp.Password with
        | none =>
          rw [parseEncryptedKey_none env kp p hpw]
          exact Or.inl ⟨rfl, rfl⟩
        | some pw =>
          refine Or.inr ⟨pw, rfl, ?_⟩
          rw [parseEncryptedKey_some env kp p pw hpw]
          by_cases h1 : (env.DecryptPEMBlock p pw).2 = error.nil
          · rw [if_neg (not_not.mpr h1)]
            by_cases h2 : (KeyTypeDispatcher env p.Type_ (env.DecryptPEMBlock p pw).1).2 = error.nil
            · rw [if_neg (not_not.mpr h2)]
              exact Or.inr ⟨h1, Or.inr ⟨h2, rfl⟩⟩
            · rw [if_pos h2]
              exact Or.inr ⟨h1, Or.inl rfl⟩
          · rw [if_pos h1]
            exact Or.inl rfl

/-- Witness of C1: the file `rsa_enc` with the password `wrong`. -/
theorem Signer_error_is_KeyError_witness :
    ((EncryptedKey "rsa_enc" "wrong").Signer Example.env).err ≠ error.nil ∧
    ((EncryptedKey "rsa_enc" "wrong").Signer Example.env).s = none ∧
    ∃ cause, cause ≠ error.nil ∧
      ((EncryptedKey "rsa_enc" "wrong").Signer Example.env).err =
        error.KeyError cause "rsa_enc" :=
  ⟨by decide,
   (Signer_error_is_KeyError Example.env (EncryptedKey "rsa_enc" "wrong") (by decide)).1,
   match (Signer_error_is_KeyError Example.env (EncryptedKey "rsa_enc" "wrong")
      (by decide)).2 with
   | ⟨cause, hne, herr, _⟩ => ⟨cause, hne, herr⟩⟩

/-- C2. On a file that can be read and whose first PEM block carries an
encryption header, whatever the block's type label, `Key(path).Signer()`
makes the read, the decode and the encryption check and nothing else, and
returns no signer and the `KeyError` for `path` whose inner cause is the error
"no password provided for encrypted key": the decryptor is not called. -/
theorem Key_Signer_of_encrypted (env : Env) (path : String) (p : pem.Block)
    (hr : (env.ReadFile path).2 = error.nil)
    (hd : (env.Decode (env.ReadFile path).1).1 = some p)
    (he : env.IsEncryptedPEMBlock p = true) :
    (Key path).Signer env =
      ⟨[Call.ReadFile path, Call.Decode (env.ReadFile path).1, Call.IsEncryptedPEMBlock p],
        none,
        error.KeyError (errors.New "no password provided for encrypted key") path⟩ ∧
    ∀ c ∈ ((Key path).Signer env).calls, c.isDecrypt = false := by
  have hs := Signer_of_encrypted env (Key path) p hr hd he
  rw [parseEncryptedKey_none env (Key path) p rfl] at hs
  have hs' : (Key path).Signer env =
      ⟨[Call.ReadFile path, Call.Decode (env.ReadFile path).1, Call.IsEncryptedPEMBlock p],
        none,
        error.KeyError (errors.New "no password provided for encrypted key") path⟩ := by
    rw [hs]; simp [errors.New, firstCalls, Key]
  refine ⟨hs', ?_⟩
  rw [hs']
  intro c hc
  simp only [List.mem_cons, List.mem_singleton, List.not_mem_nil, or_false] at hc
  rcases hc with rfl | rfl | rfl <;> rfl

/-- Witness of C2: the file `rsa_enc`. -/
theorem Key_Signer_of_encrypted_witness :
    (Example.env.ReadFile "rsa_enc").2 = error.nil ∧
    (Example.env.Decode (Example.env.ReadFile "rsa_enc").1).1 = some Example.rsaEnc ∧
    Example.env.IsEncryptedPEMBlock Example.rsaEnc = true ∧
    ((Key "rsa_enc").Signer Example.env =
      ⟨[Call.ReadFile "rsa_enc", Call.Decode (Example.env.ReadFile "rsa_enc").1,
          Call.IsEncryptedPEMBlock Example.rsaEnc],
        none,
        error.KeyError (errors.New "no password provided for encrypted key") "rsa_enc"⟩ ∧
     ∀ c ∈ ((Key "rsa_enc").Signer Example.env).calls, c.isDecrypt = false) :=
  ⟨by decide, by decide, by decide,
   Key_Signer_of_encrypted Example.env "rsa_enc" Example.rsaEnc
     (by decide) (by decide) (by decide)⟩

/-- C3. With a password supplied and a decryption that succeeds with DER
bytes `d`, `parseEncryptedKey` does what the dispatch table of the
specification says for the block's type label alone. For a label of the table
the one parser call it makes is the call of that row on `d`; when that parser
fails the result is its error, and otherwise the key goes to the signer
construction, whose result is returned. For a label without a row no parser is
called and the result is the error `unsupported private key type` followed by
the quoted label. The table sends the three labels to the PKCS#1, SEC1 and
DSA parsers and, the match being exact, has no row for a differently-cased or
padded variant. -/
theorem parseEncryptedKey_dispatch (env : Env) (kp : keyPair) (p : pem.Block)
    (pw d : Bytes) (hpw : kp.Password = some pw)
    (hdec : env.DecryptPEMBlock p pw = (d, error.nil)) :
    (match dispatchTable p.Type_ with
     | some P =>
        (kp.parseEncryptedKey env p).calls.filter Call.isParser = [P.call d] ∧
        ((P.run env d).2 ≠ error.nil →
          kp.parseEncryptedKey env p =
            ⟨[Call.DecryptPEMBlock p pw, P.call d], none, (P.run env d).2⟩) ∧
        ((P.run env d).2 = error.nil →
          kp.parseEncryptedKey env p =
            ⟨[Call.DecryptPEMBlock p pw, P.call d, Call.NewSignerFromKey (P.run env d).1],
              (env.NewSignerFromKey (P.run env d).1).1,
              (env.NewSignerFromKey (P.run env d).1).2⟩)
     | none =>
        kp.parseEncryptedKey env p =
          ⟨[Call.DecryptPEMBlock p pw], none,
            errors.New ("unsupported private key type " ++ env.Quote p.Type_)⟩) ∧
    dispatchTable "RSA PRIVATE KEY" = some StructureParser.PKCS1 ∧
    dispatchTable "EC PRIVATE KEY" = some StructureParser.SEC1 ∧
    dispatchTable "DSA PRIVATE KEY" = some StructureParser.DSA ∧
    (∀ label, label ≠ "RSA PRIVATE KEY" → label ≠ "EC PRIVATE KEY" →
      label ≠ "DSA PRIVATE KEY" → dispatchTable label = none) ∧
    dispatchTable "rsa private key" = none ∧
    dispatchTable "RSA PRIVATE KEY " = none := by
  refine ⟨?_, by decide, by decide, by decide, ?_, by decide, by decide⟩
  · rw [parseEncryptedKey_some env kp p pw hpw, hdec]
    simp only [ne_eq, not_true_eq_false, if_false, KeyTypeDispatcher, dispatchCalls]
    cases hP : dispatchTable p.Type_ with
    | none => simp [errors.New]
    | some P =>
      simp only
      by_cases hk : (P.run env d).2 = error.nil
      · simp only [hk, not_true_eq_false, if_false, false_implies, true_implies, true_and,
          and_true]
        cases P <;> simp [List.filter, Call.isParser, StructureParser.call]
      · simp only [hk, not_false_eq_true, if_true, true_implies, false_implies, and_true]
        cases P <;> simp [List.filter, Call.isParser, StructureParser.call]
  · intro label h1 h2 h3
    simp [dispatchTable, h1, h2, h3]

/-- Witness of C3: the encrypted RSA block with the password `hunter2`. -/
theorem parseEncryptedKey_dispatch_witness :
    (EncryptedKey "rsa_enc" "hunter2").Password = some (bytesOf "hunter2") ∧
    Example.env.DecryptPEMBlock Example.rsaEnc (bytesOf "hunter2") =
      (Example.der, error.nil) ∧
    (EncryptedKey "rsa_enc" "hunter2").parseEncryptedKey Example.env Example.rsaEnc =
      ⟨[Call.DecryptPEMBlock Example.rsaEnc (bytesOf "hunter2"),
          Call.ParsePKCS1PrivateKey Example.der,
          Call.NewSignerFromKey (some ⟨"rsa", Example.der⟩)],
        some ⟨Example.der⟩, error.nil⟩ :=
  ⟨rfl, by decide,
   (parseEncryptedKey_dispatch Example.env (EncryptedKey "rsa_enc" "hunter2")
      Example.rsaEnc (bytesOf "hunter2") Example.der rfl (by decide)).1.2.2 (by decide)⟩

/-- C4, the claim as stated fails. In the environment `Example.env` the first
block of `rsa_enc` is encrypted and labelled "RSA PRIVATE KEY", and `hunter2`
is the correct password. The password `kunter2` is a wrong one whose
decryption happens to end in valid padding: the decryptor reports no error
(the case the documentation of `x509.DecryptPEMBlock` describes: an incorrect
password is not always detected, the bytes returned are then noise), the noise
goes to the PKCS#1 parser, and the inner cause of the `KeyError` is that
parser's structure error, not a decryption error. -/
theorem wrong_password_may_pass_decryption :
    Example.env.IsEncryptedPEMBlock Example.rsaEnc = true ∧
    Example.rsaEnc.Type_ = "RSA PRIVATE KEY" ∧
    (Example.env.Decode (Example.env.ReadFile "rsa_enc").1).1 = some Example.rsaEnc ∧
    (EncryptedKey "rsa_enc" "hunter2").Signer Example.env =
      ⟨[Call.ReadFile "rsa_enc", Call.Decode [1],
          Call.IsEncryptedPEMBlock Example.rsaEnc,
          Call.DecryptPEMBlock Example.rsaEnc (bytesOf "hunter2"),
          Call.ParsePKCS1PrivateKey Example.der,
          Call.NewSignerFromKey (some ⟨"rsa", Example.der⟩)],
        some ⟨Example.der⟩, error.nil⟩ ∧
    bytesOf "kunter2" ≠ bytesOf "hunter2" ∧
    Example.env.DecryptPEMBlock Example.rsaEnc (bytesOf "kunter2") =
      ([0x33, 0x81], error.nil) ∧
    (EncryptedKey "rsa_enc" "kunter2").Signer Example.env =
      ⟨[Call.ReadFile "rsa_enc", Call.Decode [1],
          Call.IsEncryptedPEMBlock Example.rsaEnc,
          Call.DecryptPEMBlock Example.rsaEnc (bytesOf "kunter2"),
          Call.ParsePKCS1PrivateKey [0x33, 0x81]],
        none,
        error.KeyError
          (error.external "asn1" "asn1: structure error: tags do not match") "rsa_enc"⟩ ∧
    error.external "asn1" "asn1: structure error: tags do not match" ≠
      Example.IncorrectPasswordError := by
  decide

/-- C4, amended. On a file that can be read and whose first PEM block is
encrypted and labelled "RSA PRIVATE KEY", "EC PRIVATE KEY" or
"DSA PRIVATE KEY", for every supplied password that the decryptor rejects
(it returns a non-nil error), `EncryptedKey(path, password).Signer()` returns
no signer and the `KeyError` for `path` whose inner cause is exactly the
decryptor's error; its last call is the decryption, no parser is called. For
a password that the decryptor does not reject, the decrypted bytes go to the
parser of the label, which is the one parser called. -/
theorem rejected_password_is_decryption_error (env : Env) (path password : String)
    (p : pem.Block)
    (hr : (env.ReadFile path).2 = error.nil)
    (hd : (env.Decode (env.ReadFile path).1).1 = some p)
    (he : env.IsEncryptedPEMBlock p = true)
    (hl : p.Type_ = "RSA PRIVATE KEY" ∨ p.Type_ = "EC PRIVATE KEY" ∨
      p.Type_ = "DSA PRIVATE KEY") :
    ((env.DecryptPEMBlock p (bytesOf password)).2 ≠ error.nil →
      (EncryptedKey path password).Signer env =
        ⟨[Call.ReadFile path, Call.Decode (env.ReadFile path).1, Call.IsEncryptedPEMBlock p,
            Call.DecryptPEMBlock p (bytesOf password)],
          none,
          error.KeyError (env.DecryptPEMBlock p (bytesOf password)).2 path⟩) ∧
    ((env.DecryptPEMBlock p (bytesOf password)).2 = error.nil →
      ∃ P, dispatchTable p.Type_ = some P ∧
        ((EncryptedKey path password).Signer env).calls.filter Call.isParser =
          [P.call (env.DecryptPEMBlock p (bytesOf password)).1]) := by
  have hs := Signer_of_encrypted env (EncryptedKey path password) p hr hd he
  have hp := parseEncryptedKey_some env (EncryptedKey path password) p (bytesOf password) rfl
  constructor
  · intro hrej
    rw [hp, if_pos hrej] at hs
    rw [hs, if_pos hrej]
    simp [firstCalls, EncryptedKey]
  · intro hacc
    have hrow : ∃ P, dispatchTable p.Type_ = some P := by
      rcases hl with h | h | h <;> rw [h]
      · exact ⟨StructureParser.PKCS1, by decide⟩
      · exact ⟨StructureParser.SEC1, by decide⟩
      · exact ⟨StructureParser.DSA, by decide⟩
    obtain ⟨P, hP⟩ := hrow
    refine ⟨P, hP, ?_⟩
    rw [hs, hp, if_neg (not_not.mpr hacc)]
    simp only [dispatchCalls, hP]
    cases P <;> split_ifs <;>
      simp [firstCalls, List.filter, Call.isParser, StructureParser.call]

/-- Witness of C4, amended: the file `rsa_enc` with the password `wrong`. -/
theorem rejected_password_is_decryption_error_witness :
    (Example.env.ReadFile "rsa_enc").2 = error.nil ∧
    (Example.env.Decode (Example.env.ReadFile "rsa_enc").1).1 = some Example.rsaEnc ∧
    Example.env.IsEncryptedPEMBlock Example.rsaEnc = true ∧
    Example.rsaEnc.Type_ = "RSA PRIVATE KEY" ∧
    (Example.env.DecryptPEMBlock Example.rsaEnc (bytesOf "wrong")).2 ≠ error.nil ∧
    (EncryptedKey "rsa_enc" "wrong").Signer Example.env =
      ⟨[Call.ReadFile "rsa_enc", Call.Decode (Example.env.ReadFile "rsa_enc").1,
          Call.IsEncryptedPEMBlock Example.rsaEnc,
          Call.DecryptPEMBlock Example.rsaEnc (bytesOf "wrong")],
        none,
        error.KeyError (Example.env.DecryptPEMBlock Example.rsaEnc (bytesOf "wrong")).2
          "rsa_enc"⟩ :=
  ⟨by decide, by decide, by decide, by decide, by decide,
   (rejected_password_is_decryption_error Example.env "rsa_enc" "wrong" Example.rsaEnc
     (by decide) (by decide) (by decide) (Or.inl (by decide))).1 (by decide)⟩

/-- C5, the claim as stated fails. In the environment `Example.env` the file
`openssh_enc` holds a passphrase-protected key in the OpenSSH format: its
first block is labelled "OPENSSH PRIVATE KEY", has no PEM header, and its body
names the cipher `aes256-ctr`. The encryption check of `Signer` looks at the
PEM headers only, so the block is not taken for an encrypted one:
`parseEncryptedKey` and with it the switch on the label are not reached.
Without a password, with the password `hunter2` and with the password `wrong`
alike, `Signer` calls the generic private-key parser on the file bytes and the
inner cause of the `KeyError` is that parser's error, which is not the
unsupported-key-type error for the label. -/
theorem encrypted_openssh_cause_is_generic_error :
    (Example.env.Decode (Example.env.ReadFile "openssh_enc").1).1 =
      some Example.opensshEnc ∧
    Example.opensshEnc.Type_ = "OPENSSH PRIVATE KEY" ∧
    Example.opensshEnc.Headers = [] ∧
    Example.env.IsEncryptedPEMBlock Example.opensshEnc = false ∧
    (Key "openssh_enc").Signer Example.env =
      ⟨[Call.ReadFile "openssh_enc", Call.Decode [2],
          Call.IsEncryptedPEMBlock Example.opensshEnc, Call.ParsePrivateKey [2]],
        none,
        error.KeyError
          (error.external "ssh" "ssh: cannot decode encrypted private keys")
          "openssh_enc"⟩ ∧
    (EncryptedKey "openssh_enc" "hunter2").Signer Example.env =
      (Key "openssh_enc").Signer Example.env ∧
    (EncryptedKey "openssh_enc" "wrong").Signer Example.env =
      (Key "openssh_enc").Signer Example.env ∧
    error.external "ssh" "ssh: cannot decode encrypted private keys" ≠
      errors.New ("unsupported private key type " ++
        Example.env.Quote "OPENSSH PRIVATE KEY") := by
  decide

/-- C5, amended. On a file that can be read and whose first PEM block is
labelled "OPENSSH PRIVATE KEY" and carries no PEM encryption header (the form
of a passphrase-protected key in the OpenSSH format, whose encryption is
declared inside the body), for every keyPair over that file, without a
password or with any password, `Signer` makes the read, the decode, the
encryption check and one call of the generic private-key parser on the file
bytes, and returns that parser's result; the decryptor is not called. When
that parser fails, as it does on a key it cannot decrypt, `Signer` returns no
signer and the `KeyError` for the file whose inner cause is exactly the
parser's error, the same for every password. -/
theorem openssh_block_without_header (env : Env) (path : String) (p : pem.Block)
    (hr : (env.ReadFile path).2 = error.nil)
    (hd : (env.Decode (env.ReadFile path).1).1 = some p)
    (_hl : p.Type_ = "OPENSSH PRIVATE KEY")
    (he : env.IsEncryptedPEMBlock p = false) :
    (∀ password : Option Bytes,
      keyPair.Signer env ⟨path, password⟩ =
        ⟨[Call.ReadFile path, Call.Decode (env.ReadFile path).1, Call.IsEncryptedPEMBlock p,
            Call.ParsePrivateKey (env.ReadFile path).1],
          if (env.ParsePrivateKey (env.ReadFile path).1).2 = error.nil then
            (env.ParsePrivateKey (env.ReadFile path).1).1
          else none,
          if (env.ParsePrivateKey (env.ReadFile path).1).2 = error.nil then error.nil
          else error.KeyError (env.ParsePrivateKey (env.ReadFile path).1).2 path⟩) ∧
    (∀ password : Option Bytes,
      ∀ c ∈ (keyPair.Signer env ⟨path, password⟩).calls, c.isDecrypt = false) ∧
    ((env.ParsePrivateKey (env.ReadFile path).1).2 ≠ error.nil →
      ∀ password : Option Bytes,
        keyPair.Signer env ⟨path, password⟩ =
          ⟨[Call.ReadFile path, Call.Decode (env.ReadFile path).1,
              Call.IsEncryptedPEMBlock p, Call.ParsePrivateKey (env.ReadFile path).1],
            none,
            error.KeyError (env.ParsePrivateKey (env.ReadFile path).1).2 path⟩) := by
  have key : ∀ password : Option Bytes,
      keyPair.Signer env ⟨path, password⟩ =
        ⟨[Call.ReadFile path, Call.Decode (env.ReadFile path).1, Call.IsEncryptedPEMBlock p,
            Call.ParsePrivateKey (env.ReadFile path).1],
          if (env.ParsePrivateKey (env.ReadFile path).1).2 = error.nil then
            (env.ParsePrivateKey (env.ReadFile path).1).1
          else none,
          if (env.ParsePrivateKey (env.ReadFile path).1).2 = error.nil then error.nil
          else error.KeyError (env.ParsePrivateKey (env.ReadFile path).1).2 path⟩ := by
    intro password
    rw [Signer_of_plain env ⟨path, password⟩ p hr hd he]
    by_cases hp : (env.ParsePrivateKey (env.ReadFile path).1).2 = error.nil
    · simp [hp, firstCalls]
    · simp [hp, firstCalls]
  refine ⟨key, ?_, ?_⟩
  · intro password c hc
    rw [key password] at hc
    simp only [List.mem_cons, List.mem_singleton, List.not_mem_nil, or_false] at hc
    rcases hc with rfl | rfl | rfl | rfl <;> rfl
  · intro hf password
    rw [key password, if_neg hf, if_neg hf]

/-- Witness of C5, amended: the file `openssh_enc` with the password
`hunter2`. -/
theorem openssh_block_without_header_witness :
    (Example.env.ReadFile "openssh_enc").2 = error.nil ∧
    (Example.env.Decode (Example.env.ReadFile "openssh_enc").1).1 =
      some Example.opensshEnc ∧
    Example.opensshEnc.Type_ = "OPENSSH PRIVATE KEY" ∧
    Example.env.IsEncryptedPEMBlock Example.opensshEnc = false ∧
    (Example.env.ParsePrivateKey (Example.env.ReadFile "openssh_enc").1).2 ≠ error.nil ∧
    keyPair.Signer Example.env ⟨"openssh_enc", some (bytesOf "hunter2")⟩ =
      ⟨[Call.ReadFile "openssh_enc",
          Call.Decode (Example.env.ReadFile "openssh_enc").1,
          Call.IsEncryptedPEMBlock Example.opensshEnc,
          Call.ParsePrivateKey (Example.env.ReadFile "openssh_enc").1],
        none,
        error.KeyError
          (Example.env.ParsePrivateKey (Example.env.ReadFile "openssh_enc").1).2
          "openssh_enc"⟩ :=
  ⟨by decide, by decide, by decide, by decide, by decide,
   (openssh_block_without_header Example.env "openssh_enc" Example.opensshEnc
      (by decide) (by decide) (by decide) (by decide)).2.2 (by decide)
      (some (bytesOf "hunter2"))⟩

/-- C6. On a file that can be read and whose first PEM block carries no
encryption header, for every keyPair over the file `Signer` makes the read,
the decode, the encryption check and one call of the generic private-key
parser on the complete file bytes, and returns that parser's result: its
signer when its error is nil, and otherwise no signer and its error wrapped
in a `KeyError` for the file. Neither the decryptor nor a structure parser is
called, whatever the label, and the result does not depend on `Password`:
`EncryptedKey(path, pw).Signer()` equals `Key(path).Signer()`. -/
theorem Signer_of_unencrypted (env : Env) (path : String) (p : pem.Block)
    (hr : (env.ReadFile path).2 = error.nil)
    (hd : (env.Decode (env.ReadFile path).1).1 = some p)
    (he : env.IsEncryptedPEMBlock p = false) :
    (∀ password : Option Bytes,
      keyPair.Signer env ⟨path, password⟩ =
        ⟨[Call.ReadFile path, Call.Decode (env.ReadFile path).1, Call.IsEncryptedPEMBlock p,
            Call.ParsePrivateKey (env.ReadFile path).1],
          if (env.ParsePrivateKey (env.ReadFile path).1).2 = error.nil then
            (env.ParsePrivateKey (env.ReadFile path).1).1
          else none,
          if (env.ParsePrivateKey (env.ReadFile path).1).2 = error.nil then error.nil
          else error.KeyError (env.ParsePrivateKey (env.ReadFile path).1).2 path⟩) ∧
    (∀ pw : String, (EncryptedKey path pw).Signer env = (Key path).Signer env) := by
  have key : ∀ password : Option Bytes,
      keyPair.Signer env ⟨path, password⟩ =
        ⟨[Call.ReadFile path, Call.Decode (env.ReadFile path).1, Call.IsEncryptedPEMBlock p,
            Call.ParsePrivateKey (env.ReadFile path).1],
          if (env.ParsePrivateKey (env.ReadFile path).1).2 = error.nil then
            (env.ParsePrivateKey (env.ReadFile path).1).1
          else none,
          if (env.ParsePrivateKey (env.ReadFile path).1).2 = error.nil then error.nil
          else error.KeyError (env.ParsePrivateKey (env.ReadFile path).1).2 path⟩ := by
    intro password
    rw [Signer_of_plain env ⟨path, password⟩ p hr hd he]
    by_cases hp : (env.ParsePrivateKey (env.ReadFile path).1).2 = error.nil
    · simp [hp, firstCalls]
    · simp [hp, firstCalls]
  refine ⟨key, ?_⟩
  intro pw
  exact (key (some (bytesOf pw))).trans (key none).symm

/-- Witness of C6: the file `rsa`. -/
theorem Signer_of_unencrypted_witness :
    (Example.env.ReadFile "rsa").2 = error.nil ∧
    (Example.env.Decode (Example.env.ReadFile "rsa").1).1 = some Example.rsaPlain ∧
    Example.env.IsEncryptedPEMBlock Example.rsaPlain = false ∧
    (EncryptedKey "rsa" "hunter2").Signer Example.env = (Key "rsa").Signer Example.env ∧
    (Key "rsa").Signer Example.env =
      ⟨[Call.ReadFile "rsa", Call.Decode [3], Call.IsEncryptedPEMBlock Example.rsaPlain,
          Call.ParsePrivateKey [3]],
        some ⟨Example.der⟩, error.nil⟩ :=
  ⟨by decide, by decide, by decide,
   (Signer_of_unencrypted Example.env "rsa" Example.rsaPlain
      (by decide) (by decide) (by decide)).2 "hunter2",
   by decide⟩

/-- C7. For every file name `f`, password `p` and state of the debug sink:
when `user.Current` succeeds with a user whose home directory is `h`,
`UserKey(f)` is the keyPair with `File` the cleaned join of `h`, ".ssh" and
`f` and no password, and `EncryptedUserKey(f, p)` is the keyPair with the
same `File` and `Password` the bytes of `p`, nothing being logged; when the
lookup fails, `File` is `f` itself, the password is as before, and the only
effect is the diagnostic handed to the debug sink. -/
theorem UserKey_resolution (env : Env) (debug : debugger) (f p : String) :
    match env.Current with
    | .ok u =>
      UserKey env debug f =
        (⟨env.Clean (env.Join [u.HomeDir, ".ssh", f]), none⟩, debug, []) ∧
      EncryptedUserKey env debug f p =
        (⟨env.Clean (env.Join [u.HomeDir, ".ssh", f]), some (bytesOf p)⟩, debug, [])
    | .error err =>
      UserKey env debug f =
        (⟨f, none⟩, debug,
          (debug.log "unable to find current user: %v" [Value.error err]).2) ∧
      EncryptedUserKey env debug f p =
        (⟨f, some (bytesOf p)⟩, debug,
          (debug.log "unable to find current user: %v" [Value.error err]).2) := by
  cases hc : env.Current with
  | ok u => simp [UserKey, EncryptedUserKey, sshDir, hc, Key, EncryptedKey]
  | error err =>
    have hl : (debug.log "unable to find current user: %v" [Value.error err]).1 = debug := by
      unfold debugger.log
      cases debug.l <;> simp
    simp [UserKey, EncryptedUserKey, sshDir, hc, Key, EncryptedKey, l, hl]

/-- The resolution of C7 evaluated: with the home directory `/home/op`,
`UserKey("id_rsa")` is the key `/home/op/.ssh/id_rsa`; when the user lookup
fails and a logger is configured, `EncryptedUserKey("id_rsa", "pw")` is the
key `id_rsa` and the logger receives the diagnostic. -/
theorem UserKey_resolution_example :
    UserKey Example.env {} "id_rsa" = (⟨"/home/op/.ssh/id_rsa", none⟩, {}, []) ∧
    EncryptedUserKey Example.envNoUser ⟨some ⟨1⟩⟩ "id_rsa" "pw" =
      (⟨"id_rsa", some [112, 119]⟩, ⟨some ⟨1⟩⟩,
        [LoggerCall.Printf ⟨1⟩ "unable to find current user: %v"
          [Value.error (error.external "user" "user: Current not implemented")]]) := by
  decide

/-- C8. For every `KeyError` with file path `f` and inner error `e`, `Error()`
is the text `sshutil: key error `, then `f` as the verb `%q` renders it (a
double-quoted Go string literal), then `: `, then the message of `e`. With
the quoting of `Example.quote`, the file `foo` and an inner error of message
`bar` give `sshutil: key error "foo": bar`. -/
theorem KeyError_Error_format (env : Env) (f : String) (e : error) :
    error.Error env (error.KeyError e f) =
      "sshutil: key error " ++ env.Quote f ++ ": " ++ error.Error env e ∧
    error.Error env (error.KeyError (errors.New "bar") f) =
      "sshutil: key error " ++ env.Quote f ++ ": bar" ∧
    Example.quote "foo" = "\"foo\"" ∧
    error.Error Example.env (error.KeyError (errors.New "bar") "foo") =
      "sshutil: key error \"foo\": bar" := by
  refine ⟨rfl, ?_, by decide, by decide⟩
  show "sshutil: key error " ++ env.Quote f ++ ": " ++ "bar" = _
  rw [String.append_assoc _ ": " "bar"]
  rfl

/-- C9. A freshly created debugger has no logger and its `log` calls nothing.
After `setLog(l)` the configured logger is `l`, so that of two `setLog` the
last one wins. On a debugger whose logger is `lg`, `log(format)` makes the
one call `lg.Print(format)` and `log(format, v...)` with a non-empty `v`
makes the one call `lg.Printf(format, v...)`; on a debugger without logger
`log` calls nothing; in every case the debugger is left as it was. -/
theorem debugger_setLog_log (d : debugger) (l₁ l₂ : Option Logger) (lg : Logger)
    (format : String) (a : Value) (v : List Value) :
    ({} : debugger).l = none ∧
    ({} : debugger).log format (a :: v) = ({}, []) ∧
    ({} : debugger).log format [] = ({}, []) ∧
    (d.setLog l₁).l = l₁ ∧
    ((d.setLog l₁).setLog l₂).l = l₂ ∧
    (SetDebug d l₁).l = l₁ ∧
    (debugger.mk (some lg)).log format [] =
      (debugger.mk (some lg), [LoggerCall.Print lg [Value.string format]]) ∧
    (debugger.mk (some lg)).log format (a :: v) =
      (debugger.mk (some lg), [LoggerCall.Printf lg format (a :: v)]) ∧
    (debugger.mk none).log format (a :: v) = (debugger.mk none, []) ∧
    (debugger.mk none).log format [] = (debugger.mk none, []) ∧
    ((d.setLog (some lg)).log format [a]).2 = [LoggerCall.Printf lg format [a]] ∧
    (d.log format v).1 = d := by
  refine ⟨rfl, rfl, rfl, rfl, rfl, rfl, rfl, ?_, rfl, rfl, ?_, ?_⟩
  · simp [debugger.log]
  · simp [debugger.log, debugger.setLog]
  · unfold debugger.log
    cases d.l with
    | none => rfl
    | some lg' => by_cases hv : v.length = 0 <;> simp [hv]

/-- C10. `EncryptedKey(path, "")` carries a password: its `Password` is the
present, empty byte sequence. On a file that can be read and whose first PEM
block is encrypted, its `Signer` therefore passes the no-password guard and
calls the decryptor on the block with the empty password; the result is the
decryptor's error wrapped in a `KeyError` when the decryptor fails, and
otherwise that of the dispatch on the label and of the signer construction.
A keyPair over the file gets the no-password outcome (three calls, the
no-password error) exactly when its `Password` is absent, which is the case
for `Key` and `UserKey` and never for `EncryptedKey` and
`EncryptedUserKey`. -/
theorem EncryptedKey_empty_password (env : Env) (path : String) (p : pem.Block)
    (hr : (env.ReadFile path).2 = error.nil)
    (hd : (env.Decode (env.ReadFile path).1).1 = some p)
    (he : env.IsEncryptedPEMBlock p = true) :
    (EncryptedKey path "").Password = some [] ∧
    Call.DecryptPEMBlock p [] ∈ ((EncryptedKey path "").Signer env).calls ∧
    ((env.DecryptPEMBlock p []).2 ≠ error.nil →
      (EncryptedKey path "").Signer env =
        ⟨[Call.ReadFile path, Call.Decode (env.ReadFile path).1, Call.IsEncryptedPEMBlock p,
            Call.DecryptPEMBlock p []],
          none, error.KeyError (env.DecryptPEMBlock p []).2 path⟩) ∧
    ((env.DecryptPEMBlock p []).2 = error.nil →
      (EncryptedKey path "").Signer env =
        if (KeyTypeDispatcher env p.Type_ (env.DecryptPEMBlock p []).1).2 ≠ error.nil then
          ⟨[Call.ReadFile path, Call.Decode (env.ReadFile path).1, Call.IsEncryptedPEMBlock p,
              Call.DecryptPEMBlock p []] ++ dispatchCalls p.Type_ (env.DecryptPEMBlock p []).1,
            none,
            error.KeyError (KeyTypeDispatcher env p.Type_ (env.DecryptPEMBlock p []).1).2 path⟩
        else if (env.NewSignerFromKey
            (KeyTypeDispatcher env p.Type_ (env.DecryptPEMBlock p []).1).1).2 ≠ error.nil then
          ⟨[Call.ReadFile path, Call.Decode (env.ReadFile path).1, Call.IsEncryptedPEMBlock p,
              Call.DecryptPEMBlock p []] ++ dispatchCalls p.Type_ (env.DecryptPEMBlock p []).1 ++
              [Call.NewSignerFromKey
                (KeyTypeDispatcher env p.Type_ (env.DecryptPEMBlock p []).1).1],
            none,
            error.KeyError (env.NewSignerFromKey
              (KeyTypeDispatcher env p.Type_ (env.DecryptPEMBlock p []).1).1).2 path⟩
        else
          ⟨[Call.ReadFile path, Call.Decode (env.ReadFile path).1, Call.IsEncryptedPEMBlock p,
              Call.DecryptPEMBlock p []] ++ dispatchCalls p.Type_ (env.DecryptPEMBlock p []).1 ++
              [Call.NewSignerFromKey
                (KeyTypeDispatcher env p.Type_ (env.DecryptPEMBlock p []).1).1],
            (env.NewSignerFromKey
              (KeyTypeDispatcher env p.Type_ (env.DecryptPEMBlock p []).1).1).1,
            error.nil⟩) ∧
    (∀ password : Option Bytes,
      keyPair.Signer env ⟨path, password⟩ =
        ⟨[Call.ReadFile path, Call.Decode (env.ReadFile path).1, Call.IsEncryptedPEMBlock p],
          none,
          error.KeyError (errors.New "no password provided for encrypted key") path⟩ ↔
      password = none) ∧
    (Key path).Password = none ∧
    (∀ debug f, (UserKey env debug f).1.Password = none) ∧
    (∀ f pw, (EncryptedKey f pw).Password ≠ none) ∧
    (∀ debug f pw, (EncryptedUserKey env debug f pw).1.Password ≠ none) := by
  have hs := Signer_of_encrypted env (EncryptedKey path "") p hr hd he
  have hp := parseEncryptedKey_some env (EncryptedKey path "") p [] rfl
  refine ⟨rfl, decrypt_called_of_password env (EncryptedKey path "") p [] hr hd he rfl,
    ?_, ?_, ?_, rfl, ?_, ?_, ?_⟩
  · intro hrej
    rw [hs, hp, if_pos hrej, if_pos hrej]
    simp [firstCalls, EncryptedKey]
  · intro hacc
    rw [hs, hp, if_neg (not_not.mpr hacc)]
    by_cases hk : (KeyTypeDispatcher env p.Type_ (env.DecryptPEMBlock p []).1).2 = error.nil
    · rw [if_neg (not_not.mpr hk), if_neg (not_not.mpr hk)]
      by_cases hn : (env.NewSignerFromKey
          (KeyTypeDispatcher env p.Type_ (env.DecryptPEMBlock p []).1).1).2 = error.nil
      · rw [if_neg (not_not.mpr hn), if_neg (not_not.mpr hn)]
        simp [firstCalls, EncryptedKey]
      · rw [if_pos hn, if_pos hn]
        simp [firstCalls, EncryptedKey]
    · rw [if_pos hk, if_pos hk, if_pos hk]
      simp [firstCalls, EncryptedKey]
  · intro password
    constructor
    · intro hres
      cases hpw : password with
      | none => rfl
      | some pw =>
        exfalso
        have hmem := decrypt_called_of_password env ⟨path, password⟩ p pw hr hd he hpw
        rw [hres] at hmem
        simp at hmem
    · intro hnone
      rw [Signer_of_encrypted env ⟨path, password⟩ p hr hd he,
        parseEncryptedKey_none env ⟨path, password⟩ p hnone]
      simp [errors.New, firstCalls]
  · intro debug f
    simp only [UserKey, Key]
  · intro f pw
    simp [EncryptedKey]
  · intro debug f pw
    simp [EncryptedUserKey, EncryptedKey]

/-- Witness of C10: the file `rsa_enc`, whose decryptor rejects the empty
password. -/
theorem EncryptedKey_empty_password_witness :
    (Example.env.ReadFile "rsa_enc").2 = error.nil ∧
    (Example.env.Decode (Example.env.ReadFile "rsa_enc").1).1 = some Example.rsaEnc ∧
    Example.env.IsEncryptedPEMBlock Example.rsaEnc = true ∧
    (Example.env.DecryptPEMBlock Example.rsaEnc []).2 ≠ error.nil ∧
    (EncryptedKey "rsa_enc" "").Signer Example.env =
      ⟨[Call.ReadFile "rsa_enc", Call.Decode (Example.env.ReadFile "rsa_enc").1,
          Call.IsEncryptedPEMBlock Example.rsaEnc,
          Call.DecryptPEMBlock Example.rsaEnc []],
        none,
        error.KeyError (Example.env.DecryptPEMBlock Example.rsaEnc []).2 "rsa_enc"⟩ :=
  ⟨by decide, by decide, by decide, by decide,
   (EncryptedKey_empty_password Example.env "rsa_enc" Example.rsaEnc
      (by decide) (by decide) (by decide)).2.2.1 (by decide)⟩

end Sshutil
